import Mathlib

/-!
Verification of the F-Ops proposal-only change validation pipeline.

Shallow embedding of the Python sources under `backend/app/` and
`mcp_packs/`:
- `mcp_servers/mcp_terraform.py` (plan status classification and summary),
- `mcp_servers/mcp_helm.py` (lint parsing and manifest extraction),
- `mcp_servers/mcp_github.py` / `mcp_gitlab.py` (allow-list check,
  PR creation audit effects),
- `core/pr_orchestrator.py` (publish flow audit effects),
- `core/audit.py` (append and query of the audit trail),
- `core/citation_engine.py` (citation binding).

Python strings are modelled by Lean `String`; the string helpers below
re-implement the exact Python semantics of `str.split`, `in`,
`str.startswith`, `str.strip` and `str.replace` structurally on the
underlying character lists so that every definition evaluates in the
kernel.  External libraries (the YAML loader, the MD5 digest, the git
platform clients) are abstracted as explicit function parameters; the
control flow of the repository is translated verbatim.
-/

-- ===================================================================
-- String helpers (Python semantics, structural on character lists)
-- ===================================================================

/-- Characters accumulated in reverse; model of Python `s.split(sep)`
for a single-character separator, keeping empty fields. -/
def splitLinesAux : List Char → List Char → List String
  | [], cur => [String.mk cur.reverse]
  | c :: cs, cur =>
    if c = '\n' then String.mk cur.reverse :: splitLinesAux cs []
    else splitLinesAux cs (c :: cur)

/-- Python split of the output at newline characters. -/
def splitLines (s : String) : List String := splitLinesAux s.data []

/-- Containment of one character sequence in another. -/
def seqContains (needle : List Char) : List Char → Bool
  | [] => needle.isEmpty
  | c :: cs => needle.isPrefixOf (c :: cs) || seqContains needle cs

/-- Python `needle in hay` for strings. -/
def strContains (hay needle : String) : Bool := seqContains needle.data hay.data

/-- Python `s.startswith(pre)`. -/
def strStartsWith (s pre : String) : Bool := pre.data.isPrefixOf s.data

/-- Drop whitespace on both ends of a character list. -/
def trimChars (l : List Char) : List Char :=
  ((l.dropWhile Char.isWhitespace).reverse.dropWhile Char.isWhitespace).reverse

/-- Python `s.strip()`. -/
def strTrim (s : String) : String := String.mk (trimChars s.data)

/-- Python newline-join of a line list. -/
def joinLines : List String → String
  | [] => ""
  | [l] => l
  | l :: l2 :: ls => l ++ "\n" ++ joinLines (l2 :: ls)

/-- Replacement worker with explicit fuel (the fuel is the length of the
scanned list, enough for every non-empty pattern). -/
def replaceFuel (pat rep : List Char) : Nat → List Char → List Char
  | 0, l => l
  | _ + 1, [] => []
  | n + 1, c :: cs =>
    if pat.isPrefixOf (c :: cs) then rep ++ replaceFuel pat rep n ((c :: cs).drop pat.length)
    else c :: replaceFuel pat rep n cs

/-- Python `s.replace(pat, rep)` for non-empty `pat`. -/
def strReplace (s pat rep : String) : String :=
  String.mk (replaceFuel pat.data rep.data s.data.length s.data)

/-- Code-point lexicographic comparison of character lists. -/
def charListLt : List Char → List Char → Bool
  | [], [] => false
  | [], _ :: _ => true
  | _ :: _, [] => false
  | a :: as, b :: bs =>
    if a.toNat < b.toNat then true
    else if b.toNat < a.toNat then false
    else charListLt as bs

/-- Python `a < b` on strings (code-point lexicographic; on ISO
timestamps this agrees with `datetime` comparison). -/
def strLt (a b : String) : Bool := charListLt a.data b.data

-- ===================================================================
-- Terraform plan: MCPTerraform._generate_plan_summary and
-- MCPTerraform._run_terraform_plan (mcp_servers/mcp_terraform.py)
-- ===================================================================

/-- One parsed message of the newline-delimited JSON plan stream.
Each field models the corresponding `item.get(...)` access: `level` is
the @level key, `message` the @message key, `diagnostic` the
diagnostic payload, `msgType` the type key, `change_action` the
action key of the change dictionary, and the four resource fields
come from its resource dictionary.  `none` models an absent key. -/
structure TfMsg where
  level : Option String
  message : Option String
  diagnostic : Option String
  msgType : Option String
  change_action : Option String
  res_type : Option String
  res_name : Option String
  provider_name : Option String
  res_addr : Option String
deriving DecidableEq

/-- Entry of the resources list of the summary. -/
structure ResourceEntry where
  rtype : String
  name : String
  action : String
  provider : String
  addr : String
deriving DecidableEq

/-- Entry of the drift list of the summary. -/
structure DriftEntry where
  rtype : String
  name : String
  action : String
deriving DecidableEq

/-- Entry of the errors list of the summary. -/
structure ErrorEntry where
  message : String
  diagnostic : String
deriving DecidableEq

/-- The summary dictionary built by `_generate_plan_summary`. -/
structure PlanSummary where
  add : Nat
  change : Nat
  destroy : Nat
  resources : List ResourceEntry
  drift : List DriftEntry
  errors : List ErrorEntry
deriving DecidableEq

/-- Model of `_empty_summary`. -/
def empty_summary : PlanSummary := ⟨0, 0, 0, [], [], []⟩

/-- Python truthiness fallback (action or unknown): both a missing
key and an empty string fall back to the literal unknown. -/
def orUnknown (o : Option String) : String :=
  match o with
  | none => "unknown"
  | some s => if s == "" then "unknown" else s

/-- Resource record (resource_type, resource_name, action, provider,
addr with their defaults) for one `planned_change` message. -/
def mkResource (m : TfMsg) : ResourceEntry :=
  ⟨m.res_type.getD "unknown", m.res_name.getD "unknown", orUnknown m.change_action,
    m.provider_name.getD "", m.res_addr.getD ""⟩

/-- Drift record for one `resource_drift` message. -/
def mkDrift (m : TfMsg) : DriftEntry :=
  ⟨m.res_type.getD "unknown", m.res_name.getD "unknown", m.change_action.getD "unknown"⟩

/-- Error record for one error-level message. -/
def mkError (m : TfMsg) : ErrorEntry :=
  ⟨m.message.getD "", m.diagnostic.getD ""⟩

/-- Guard of the first branch of the loop body: the @level key equals
the literal error. -/
def isErrorMsg (m : TfMsg) : Bool := m.level == some "error"

/-- A message classified into the `planned_change` branch: it is not an
error-level message and its `type` is `planned_change`. -/
def isPlannedMsg (m : TfMsg) : Bool :=
  !(isErrorMsg m) && (m.msgType == some "planned_change")

/-- A `planned_change` message with the given action. -/
def isActionMsg (a : String) (m : TfMsg) : Bool :=
  isPlannedMsg m && (m.change_action == some a)

/-- A message classified into the `resource_drift` branch. -/
def isDriftMsg (m : TfMsg) : Bool :=
  !(isErrorMsg m) && !(m.msgType == some "planned_change") && (m.msgType == some "resource_drift")

/-- Body of the `for item in plan_json` loop of
`_generate_plan_summary`. -/
def summaryStep (s : PlanSummary) (m : TfMsg) : PlanSummary :=
  if m.level == some "error" then
    { s with errors := s.errors ++ [mkError m] }
  else if m.msgType == some "planned_change" then
    let s1 :=
      if m.change_action == some "create" then { s with add := s.add + 1 }
      else if m.change_action == some "update" then { s with change := s.change + 1 }
      else if m.change_action == some "delete" then { s with destroy := s.destroy + 1 }
      else s
    { s1 with resources := s1.resources ++ [mkResource m] }
  else if m.msgType == some "resource_drift" then
    { s with drift := s.drift ++ [mkDrift m] }
  else s

/-- Model of `MCPTerraform._generate_plan_summary` over the parsed message
list. -/
def generate_plan_summary (plan_json : List TfMsg) : PlanSummary :=
  plan_json.foldl summaryStep empty_summary

/-- The result dictionary of `_run_terraform_plan` (the fields the
claims are about). -/
structure PlanResult where
  status : String
  summary : PlanSummary
  exit_code : Int
deriving DecidableEq

/-- Model of `MCPTerraform._run_terraform_plan` after the subprocess finished:
`plan_json` is the message list obtained by `_parse_json_output` from
the captured stdout, `exit_code` the subprocess return code.  The
status is computed solely from the exit code. -/
def run_terraform_plan (exit_code : Int) (plan_json : List TfMsg) : PlanResult :=
  { status :=
      if exit_code = 0 then "no_changes"
      else if exit_code = 2 then "changes_required"
      else "failed",
    summary := generate_plan_summary plan_json,
    exit_code := exit_code }

/-- A canned `planned_change` message with action `create` (the
scenario fixture of the spec). -/
def sampleCreateMsg : TfMsg :=
  { level := some "info", message := some "aws_instance.web: Plan to create",
    diagnostic := none, msgType := some "planned_change", change_action := some "create",
    res_type := some "aws_instance", res_name := some "web",
    provider_name := some "registry.terraform.io/hashicorp/aws",
    res_addr := some "aws_instance.web" }

/-- A canned `update` message. -/
def sampleUpdateMsg : TfMsg :=
  { level := some "info", message := some "aws_s3_bucket.b: Plan to update",
    diagnostic := none, msgType := some "planned_change", change_action := some "update",
    res_type := some "aws_s3_bucket", res_name := some "b",
    provider_name := some "registry.terraform.io/hashicorp/aws",
    res_addr := some "aws_s3_bucket.b" }

/-- A canned `delete` message. -/
def sampleDeleteMsg : TfMsg :=
  { level := some "info", message := some "aws_iam_role.r: Plan to delete",
    diagnostic := none, msgType := some "planned_change", change_action := some "delete",
    res_type := some "aws_iam_role", res_name := some "r",
    provider_name := some "registry.terraform.io/hashicorp/aws",
    res_addr := some "aws_iam_role.r" }

/-- A canned error-level diagnostic message. -/
def sampleErrorMsg : TfMsg :=
  { level := some "error", message := some "Error: Invalid resource type",
    diagnostic := some "Invalid resource type", msgType := some "diagnostic",
    change_action := none, res_type := none, res_name := none,
    provider_name := none, res_addr := none }

-- ===================================================================
-- Helm lint: MCPHelm._parse_lint_output and MCPHelm._run_helm_lint
-- (mcp_servers/mcp_helm.py)
-- ===================================================================

/-- The dictionary built by `_parse_lint_output`. -/
structure LintInfo where
  warnings : List String
  info : List String
  error_count : Nat
  warning_count : Nat
deriving DecidableEq

/-- Body of the per-line loop of
`_parse_lint_output`: the line is stripped, then bucketed by the first
matching bracketed marker. -/
def lintStep (s : LintInfo) (rawLine : String) : LintInfo :=
  let line := strTrim rawLine
  if strContains line "[WARNING]" then
    { s with warnings := s.warnings ++ [strTrim (strReplace line "[WARNING]" "")],
             warning_count := s.warning_count + 1 }
  else if strContains line "[INFO]" then
    { s with info := s.info ++ [strTrim (strReplace line "[INFO]" "")] }
  else if strContains line "[ERROR]" then
    { s with error_count := s.error_count + 1 }
  else s

/-- Model of `MCPHelm._parse_lint_output`. -/
def parse_lint_output (output : String) : LintInfo :=
  (splitLines output).foldl lintStep ⟨[], [], 0, 0⟩

/-- The dictionary returned by `_run_helm_lint`. -/
structure LintResult where
  passed : Bool
  output : String
  errors : String
  warnings : List String
  info : List String
  error_count : Nat
  warning_count : Nat
deriving DecidableEq

/-- Model of `MCPHelm._run_helm_lint` after the `helm lint` subprocess finished
with the given return code, stdout and stderr. -/
def run_helm_lint (returncode : Int) (stdout stderr : String) : LintResult :=
  let lint_info := parse_lint_output stdout
  { passed := returncode == 0,
    output := stdout,
    errors := stderr,
    warnings := lint_info.warnings,
    info := lint_info.info,
    error_count := lint_info.error_count,
    warning_count := lint_info.warning_count }

/-- A stripped line that falls into the `[ERROR]` bucket of the elif
chain (neither `[WARNING]` nor `[INFO]` occurs in it). -/
def countsAsError (rawLine : String) : Bool :=
  let line := strTrim rawLine
  !(strContains line "[WARNING]") && !(strContains line "[INFO]") && strContains line "[ERROR]"

/-- Some line of the output contains the `[ERROR]` marker. -/
def hasErrorLine (output : String) : Bool :=
  (splitLines output).any (fun l => strContains l "[ERROR]")

-- ===================================================================
-- Helm manifests: MCPHelm._extract_manifests (mcp_servers/mcp_helm.py)
-- The YAML loader (yaml.safe_load) is external to the repository and
-- is abstracted as a parameter `load`; the guard
-- (manifest truthy, a dict, carrying a truthy kind field)
-- is abstracted as the parameter `keep`.
-- ===================================================================

/-- Separator test: the line starts with --- but not with ---#. -/
def sepLine (l : String) : Bool :=
  strStartsWith l "---" && !(strStartsWith l "---#")

/-- Buffered-body test (the stripped line is non-empty and does not
start with #), without the `in_manifest` flag. -/
def bodyKept (l : String) : Bool :=
  (strTrim l != "") && !(strStartsWith l "#")

/-- Parse one buffered document: `yaml.safe_load` on the joined buffer,
kept only when the loaded value passes the kind guard.  An empty buffer
yields nothing (`if current_manifest:`). -/
def bufDoc {α : Type} (load : String → Option α) (keep : α → Bool)
    (buf : List String) : Option α :=
  if buf.isEmpty then none
  else
    match load (joinLines buf) with
    | some m => if keep m then some m else none
    | none => none

/-- Close the current buffer into the accumulated manifest list. -/
def flushBuf {α : Type} (load : String → Option α) (keep : α → Bool)
    (buf : List String) (acc : List α) : List α :=
  match bufDoc load keep buf with
  | some m => acc ++ [m]
  | none => acc

/-- The line loop of `_extract_manifests`: state is the current buffer,
the `in_manifest` flag and the accumulated manifests. -/
def scanLines {α : Type} (load : String → Option α) (keep : α → Bool) :
    List String → List String → Bool → List α → List α
  | [], buf, _, acc => flushBuf load keep buf acc
  | l :: ls, buf, inM, acc =>
    if sepLine l then scanLines load keep ls [] true (flushBuf load keep buf acc)
    else if inM && bodyKept l then scanLines load keep ls (buf ++ [l]) inM acc
    else scanLines load keep ls buf inM acc

/-- Model of `MCPHelm._extract_manifests`. -/
def extract_manifests {α : Type} (load : String → Option α) (keep : α → Bool)
    (output : String) : List α :=
  scanLines load keep (splitLines output) [] false []

/-- Layout in which every document block is introduced by its own
`---` line (the layout helm template output uses). -/
def blocksToLines (blocks : List (List String)) : List String :=
  blocks.foldr (fun b acc => "---" :: (b ++ acc)) []

/-- The manifest one document block contributes: its kept body lines
are buffered, joined and loaded. -/
def blockDoc {α : Type} (load : String → Option α) (keep : α → Bool)
    (b : List String) : Option α :=
  bufDoc load keep (b.filter bodyKept)

-- ===================================================================
-- AccessGuard: MCPGitHub.validate_repo / MCPGitLab.validate_repo
-- (mcp_servers/mcp_github.py, mcp_servers/mcp_gitlab.py; identical)
-- ===================================================================

/-- Model of `validate_repo`: `Except.error` models the raised `ValueError`,
`Except.ok true` the normal return.  An empty allow list passes
everything (with a logged warning); otherwise some entry must be a
substring of the repo URL. -/
def validate_repo (allowed_repos : List String) (repo_url : String) : Except String Bool :=
  if allowed_repos.isEmpty then Except.ok true
  else if allowed_repos.any (fun allowed => strContains repo_url allowed) then Except.ok true
  else Except.error ("Repository not allow-listed: " ++ repo_url)

-- ===================================================================
-- Audit trail: AuditLogger.log_action and AuditLogger.get_audit_trail
-- (core/audit.py)
-- ===================================================================

/-- One audit entry as written by `log_action` (details and metadata
are opaque payload). -/
structure AuditEntry where
  id : String
  timestamp : String
  action : String
  user : String
  resource : Option String
  details : String
deriving DecidableEq

/-- The append performed by `log_action`: one JSON line appended to the
current day file.  The id generation (`sha256(timestamp+nonce)[:12]`)
is part of the entry construction and irrelevant to the trail shape. -/
def log_action (current_log : List AuditEntry) (entry : AuditEntry) : List AuditEntry :=
  current_log ++ [entry]

/-- The filter chain of `get_audit_trail` (timestamps compared as ISO
strings, which is order-faithful for `datetime.fromisoformat`). -/
def matchesFilters (action_f user_f resource_f start_f end_f : Option String)
    (e : AuditEntry) : Bool :=
  (match action_f with | some a => e.action == a | none => true) &&
  (match user_f with | some u => e.user == u | none => true) &&
  (match resource_f with | some r => e.resource == some r | none => true) &&
  (match start_f with | some s => !(strLt e.timestamp s) | none => true) &&
  (match end_f with | some t => !(strLt t e.timestamp) | none => true)

/-- The per-file line loop of `get_audit_trail`: matching entries are
appended; as soon as `len(entries) >= limit` the collected list is
returned as is (flag `true`). -/
def scanFile (filt : AuditEntry → Bool) (limit : Nat) :
    List AuditEntry → List AuditEntry → List AuditEntry × Bool
  | [], acc => (acc, false)
  | e :: rest, acc =>
    if filt e then
      if limit ≤ (acc ++ [e]).length then (acc ++ [e], true)
      else scanFile filt limit rest (acc ++ [e])
    else scanFile filt limit rest acc

/-- The file loop of `get_audit_trail` over the day files selected by
`_get_log_files_in_range`, oldest day first. -/
def scanFiles (filt : AuditEntry → Bool) (limit : Nat) :
    List (List AuditEntry) → List AuditEntry → List AuditEntry × Bool
  | [], acc => (acc, false)
  | f :: fs, acc =>
    match scanFile filt limit f acc with
    | (acc2, true) => (acc2, true)
    | (acc2, false) => scanFiles filt limit fs acc2

/-- Stable insertion for descending timestamp order (Python
`list.sort(key=timestamp, reverse=True)` is stable). -/
def insertDescByTs (e : AuditEntry) : List AuditEntry → List AuditEntry
  | [] => [e]
  | x :: xs => if strLt e.timestamp x.timestamp then x :: insertDescByTs e xs else e :: x :: xs

/-- Stable descending sort by timestamp (Python list.sort with the
timestamp key and reverse=True). -/
def sortDescByTs (l : List AuditEntry) : List AuditEntry :=
  l.foldr insertDescByTs []

/-- Model of `AuditLogger.get_audit_trail` over the day files selected by date
range: collect matching entries file by file; if the limit is reached
mid-scan the collected entries are returned immediately (before any
sort), otherwise they are sorted newest first and truncated. -/
def get_audit_trail (action_f user_f resource_f start_f end_f : Option String)
    (limit : Nat) (log_files : List (List AuditEntry)) : List AuditEntry :=
  match scanFiles (matchesFilters action_f user_f resource_f start_f end_f) limit log_files [] with
  | (entries, true) => entries
  | (entries, false) => (sortDescByTs entries).take limit

/-- First appended entry of the two-append scenario. -/
def auditE1 : AuditEntry :=
  ⟨"aaaa00000001", "2025-06-01T10:00:00", "deployment.initiated", "alice", none, "start"⟩

/-- Second appended entry of the two-append scenario (newer
timestamp). -/
def auditE2 : AuditEntry :=
  ⟨"aaaa00000002", "2025-06-01T10:00:05", "deployment.completed", "alice", none, "done"⟩

-- ===================================================================
-- Publish audit effects: PROrchestrator.create_pr and the directly
-- callable MCPGitHub.create_pr / MCPGitLab.create_mr
-- (core/pr_orchestrator.py, mcp_servers/mcp_github.py,
--  mcp_servers/mcp_gitlab.py).  For a direct server call the git
-- platform client is abstracted as the `api` parameter:
-- `Except.ok pr_url` models a created PR/MR, `Except.error e` a
-- raised platform exception (including the allow-list rejection of
-- `validate_repo`).  The orchestrator does NOT call these server
-- classes: its import of mcp_packs.pack_manager resolves to
-- backend/mcp_packs/pack_manager.py, the only regular package named
-- mcp_packs on the path.  That pack manager drops the audit logger in
-- initialize_github_pack / initialize_gitlab_pack, and its
-- execute_action is an async def that _create_github_pr /
-- _create_gitlab_mr invoke without await, so the result is a
-- coroutine object, result.get raises AttributeError before any
-- platform or audit work, and the orchestrator always lands in its
-- except branch.
-- ===================================================================

/-- One entry appended by `AuditLogger.log_operation`
(core/audit_logger.py): the type and agent keys of the operation, the
status key (defaulting to completed), and the PR URL carried in the
outputs. -/
structure OpEntry where
  operation_type : Option String
  agent : Option String
  status : String
  outputs : Option String
deriving DecidableEq

/-- The entry `log_pr_creation` appends for a created PR/MR. -/
def prCreationEntry (agent pr_url : String) : OpEntry :=
  ⟨some "pr_creation", some agent, "completed", some pr_url⟩

/-- The entry appended by the failure branch of the orchestrator
(type pr_creation_failed). -/
def prFailureEntry : OpEntry :=
  ⟨some "pr_creation_failed", some "pr_orchestrator", "completed", none⟩

/-- Model of `MCPGitHub.create_pr` / `MCPGitLab.create_mr` audit effect: on
platform success the server appends one `pr_creation` entry when it
holds an audit logger, and returns the URL; on a raised platform error
it appends nothing and re-raises. -/
def mcp_create_pr (agent : String) (hasLogger : Bool) (api : Except String String)
    (trail : List OpEntry) : Except String String × List OpEntry :=
  match api with
  | Except.ok pr_url =>
    (Except.ok pr_url, if hasLogger then trail ++ [prCreationEntry agent pr_url] else trail)
  | Except.error e => (Except.error e, trail)

/-- Model of `PROrchestrator._create_github_pr`: it calls
`pack_manager.execute_action` of the backend pack manager, an async
def invoked without await, so `result` is a coroutine object and the
following `result.get` raises AttributeError; no audit entry is
appended on this path (the pack manager holds no audit logger and its
simulation never logs). -/
def create_github_pr_call : Except String String :=
  Except.error "AttributeError: coroutine object has no attribute get"

/-- Model of `PROrchestrator._create_gitlab_mr`: same un-awaited
`execute_action` call, same AttributeError, no audit append. -/
def create_gitlab_mr_call : Except String String :=
  Except.error "AttributeError: coroutine object has no attribute get"

/-- Model of `PROrchestrator.create_pr` audit effect (no dry-run
artifacts): route by host substring to `_create_github_pr` /
`_create_gitlab_mr`; on a returned URL the orchestrator would append
its own `pr_creation` entry, on any raised exception it appends one
`pr_creation_failed` entry and re-raises.  Because the inner call
always raises (the coroutine is never awaited), only the failure arm
is reachable. -/
def orch_create_pr (repo_url : String) (trail : List OpEntry) :
    Except String String × List OpEntry :=
  if strContains repo_url "github.com" then
    match create_github_pr_call with
    | Except.ok url => (Except.ok url, trail ++ [prCreationEntry "pr_orchestrator" url])
    | Except.error e => (Except.error e, trail ++ [prFailureEntry])
  else if strContains repo_url "gitlab.com" then
    match create_gitlab_mr_call with
    | Except.ok url => (Except.ok url, trail ++ [prCreationEntry "pr_orchestrator" url])
    | Except.error e => (Except.error e, trail ++ [prFailureEntry])
  else (Except.error ("Unsupported repository platform: " ++ repo_url), trail ++ [prFailureEntry])

-- ===================================================================
-- Citations: CitationEngine.generate_citations and
-- CitationEngine.track_usage (core/citation_engine.py).  The MD5
-- digest (hashlib) is external and abstracted as the parameter
-- `md5hex`.
-- ===================================================================

/-- One knowledge-base source: its citation string and the title of
its metadata (defaulting to Untitled). -/
structure KBSource where
  citation : String
  title : Option String
deriving DecidableEq

/-- The usage record built by `track_usage`. -/
structure TrackRecord where
  content_hash : String
  sources_used : List String
  usage_count : Nat
deriving DecidableEq

/-- Model of `CitationEngine.track_usage`. -/
def track_usage (content_hash : String) (sources : List String) : TrackRecord :=
  ⟨content_hash, sources, sources.length⟩

/-- One line `[idx] citation: title` of the citation section. -/
def citationLine (idx : Nat) (s : KBSource) : String :=
  "[" ++ toString idx ++ "] " ++ s.citation ++ ": " ++ s.title.getD "Untitled"

/-- Model of `enumerate(kb_sources, 1)` mapped through the citation format. -/
def citationLines : Nat → List KBSource → List String
  | _, [] => []
  | i, s :: ss => citationLine i s :: citationLines (i + 1) ss

/-- Model of `CitationEngine.generate_citations`: returns the (possibly cited)
content together with the usage record passed to `track_usage`, or
`none` when the early return for an empty source list fires. -/
def generate_citations (md5hex : String → String) (generated_content : String)
    (kb_sources : List KBSource) : String × Option TrackRecord :=
  if kb_sources.isEmpty then (generated_content, none)
  else
    let citations := citationLines 1 kb_sources
    let cited := generated_content ++ "\n\n# Citations\n" ++ joinLines citations
    let content_hash := md5hex generated_content
    (cited, some (track_usage content_hash (kb_sources.map KBSource.citation)))

/-- Claim-side classification: a `planned_change` message with the
given action (no error-level messages around per the claims). -/
def plannedWithAction (a : String) (m : TfMsg) : Bool :=
  (m.msgType == some "planned_change") && (m.change_action == some a)

/-- Claim-side classification: a `planned_change` message. -/
def plannedType (m : TfMsg) : Bool := m.msgType == some "planned_change"

-- ===================================================================
-- Theorems
-- ===================================================================

theorem summaryStep_spec (s : PlanSummary) (m : TfMsg) :
    summaryStep s m =
      { add := s.add + (if isActionMsg "create" m then 1 else 0),
        change := s.change + (if isActionMsg "update" m then 1 else 0),
        destroy := s.destroy + (if isActionMsg "delete" m then 1 else 0),
        resources := s.resources ++ (if isPlannedMsg m then [mkResource m] else []),
        drift := s.drift ++ (if isDriftMsg m then [mkDrift m] else []),
        errors := s.errors ++ (if isErrorMsg m then [mkError m] else []) } := by
  simp only [summaryStep, isActionMsg, isPlannedMsg, isDriftMsg, isErrorMsg]
  by_cases h1 : m.level == some "error"
  · simp [h1]
  · by_cases h2 : m.msgType == some "planned_change"
    · have h6 : (m.msgType == some "resource_drift") = false := by
        rw [eq_of_beq h2]; decide
      by_cases h3 : m.change_action == some "create"
      · have h4 : (m.change_action == some "update") = false := by
          rw [eq_of_beq h3]; decide
        have h5 : (m.change_action == some "delete") = false := by
          rw [eq_of_beq h3]; decide
        simp [h1, h2, h3, h4, h5, h6]
      · by_cases h4 : m.change_action == some "update"
        · have h5 : (m.change_action == some "delete") = false := by
            rw [eq_of_beq h4]; decide
          simp [h1, h2, h3, h4, h5, h6]
        · by_cases h5 : m.change_action == some "delete" <;> simp [h1, h2, h3, h4, h5, h6]
    · by_cases h6 : m.msgType == some "resource_drift" <;> simp [h1, h2, h6]

theorem foldl_summary_add (msgs : List TfMsg) :
    ∀ s : PlanSummary,
      (List.foldl summaryStep s msgs).add = s.add + (msgs.filter (isActionMsg "create")).length := by
  induction msgs with
  | nil => intro s; simp
  | cons m rest ih =>
    intro s
    rw [List.foldl_cons, ih, summaryStep_spec, List.filter_cons]
    by_cases h : isActionMsg "create" m
    · simp [h]; omega
    · simp [h]

theorem foldl_summary_change (msgs : List TfMsg) :
    ∀ s : PlanSummary,
      (List.foldl summaryStep s msgs).change = s.change + (msgs.filter (isActionMsg "update")).length := by
  induction msgs with
  | nil => intro s; simp
  | cons m rest ih =>
    intro s
    rw [List.foldl_cons, ih, summaryStep_spec, List.filter_cons]
    by_cases h : isActionMsg "update" m
    · simp [h]; omega
    · simp [h]

theorem foldl_summary_destroy (msgs : List TfMsg) :
    ∀ s : PlanSummary,
      (List.foldl summaryStep s msgs).destroy = s.destroy + (msgs.filter (isActionMsg "delete")).length := by
  induction msgs with
  | nil => intro s; simp
  | cons m rest ih =>
    intro s
    rw [List.foldl_cons, ih, summaryStep_spec, List.filter_cons]
    by_cases h : isActionMsg "delete" m
    · simp [h]; omega
    · simp [h]

theorem foldl_summary_resources (msgs : List TfMsg) :
    ∀ s : PlanSummary,
      (List.foldl summaryStep s msgs).resources =
        s.resources ++ (msgs.filter isPlannedMsg).map mkResource := by
  induction msgs with
  | nil => intro s; simp
  | cons m rest ih =>
    intro s
    rw [List.foldl_cons, ih, summaryStep_spec, List.filter_cons]
    by_cases h : isPlannedMsg m <;> simp [h]

theorem foldl_summary_errors (msgs : List TfMsg) :
    ∀ s : PlanSummary,
      (List.foldl summaryStep s msgs).errors =
        s.errors ++ (msgs.filter isErrorMsg).map mkError := by
  induction msgs with
  | nil => intro s; simp
  | cons m rest ih =>
    intro s
    rw [List.foldl_cons, ih, summaryStep_spec, List.filter_cons]
    by_cases h : isErrorMsg m <;> simp [h]

theorem filter_isActionMsg_of_noerr (a : String) (msgs : List TfMsg)
    (h_noerr : ∀ m ∈ msgs, isErrorMsg m = false) :
    msgs.filter (isActionMsg a) = msgs.filter (plannedWithAction a) := by
  apply List.filter_congr
  intro m hm
  simp [isActionMsg, isPlannedMsg, plannedWithAction, h_noerr m hm]

theorem filter_isPlannedMsg_of_noerr (msgs : List TfMsg)
    (h_noerr : ∀ m ∈ msgs, isErrorMsg m = false) :
    msgs.filter isPlannedMsg = msgs.filter plannedType := by
  apply List.filter_congr
  intro m hm
  simp [isPlannedMsg, plannedType, h_noerr m hm]

theorem planned_filter_partition (msgs : List TfMsg)
    (h_act : ∀ m ∈ msgs, plannedType m = true →
      m.change_action = some "create" ∨ m.change_action = some "update" ∨
      m.change_action = some "delete") :
    (msgs.filter plannedType).length =
      (msgs.filter (plannedWithAction "create")).length +
      (msgs.filter (plannedWithAction "update")).length +
      (msgs.filter (plannedWithAction "delete")).length := by
  induction msgs with
  | nil => simp
  | cons m rest ih =>
    have hrest : ∀ x ∈ rest, plannedType x = true →
        x.change_action = some "create" ∨ x.change_action = some "update" ∨
        x.change_action = some "delete" :=
      fun x hx => h_act x (List.mem_cons_of_mem _ hx)
    by_cases hp : plannedType m
    · have hm_type : m.msgType = some "planned_change" := by
        simpa [plannedType] using hp
      rcases h_act m (List.mem_cons_self _ _) hp with h | h | h <;>
        simp [List.filter_cons, plannedWithAction, plannedType, hm_type, h, ih hrest] <;>
          omega
    · have hm_type : ¬ m.msgType = some "planned_change" := by
        simpa [plannedType] using hp
      simp [List.filter_cons, plannedWithAction, plannedType, hm_type, ih hrest]

/-- C1 (corrected): in `_run_terraform_plan` the returned status is
computed from the subprocess exit code alone; error-level messages of
the parsed JSON stream never change it — they are collected into
the errors list of the summary instead. -/
theorem terraform_error_status_amended (exit_code : Int) (plan_json : List TfMsg) :
    (run_terraform_plan exit_code plan_json).status =
      (if exit_code = 0 then "no_changes"
       else if exit_code = 2 then "changes_required" else "failed") ∧
    (run_terraform_plan exit_code plan_json).summary.errors =
      (plan_json.filter isErrorMsg).map mkError := by
  refine ⟨rfl, ?_⟩
  show (generate_plan_summary plan_json).errors = _
  rw [generate_plan_summary, foldl_summary_errors]
  simp [empty_summary]

/-- C1 counterexample: one error-level message with exit code 0 yields
status `no_changes`, not `failed` — the claim as stated is false. -/
theorem terraform_error_status_counterexample :
    isErrorMsg sampleErrorMsg = true ∧
    (run_terraform_plan 0 [sampleErrorMsg]).status = "no_changes" ∧
    (run_terraform_plan 0 [sampleErrorMsg]).status ≠ "failed" := by decide

/-- C2: the plan status is determined by the subprocess exit code:
0 maps to `no_changes`, 2 to `changes_required`, and every other exit
code to `failed`; exit code 2 is never classified as a failure.  The
canned scenario of the spec (one `create` message, exit code 2) yields
`changes_required` with `add = 1`. -/
theorem terraform_exit_code_mapping (plan_json : List TfMsg) :
    (run_terraform_plan 0 plan_json).status = "no_changes" ∧
    (run_terraform_plan 2 plan_json).status = "changes_required" ∧
    (∀ ec : Int, ec ≠ 0 → ec ≠ 2 → (run_terraform_plan ec plan_json).status = "failed") ∧
    (run_terraform_plan 2 plan_json).status ≠ "failed" ∧
    (run_terraform_plan 2 [sampleCreateMsg]).status = "changes_required" ∧
    (run_terraform_plan 2 [sampleCreateMsg]).summary.add = 1 := by
  refine ⟨rfl, rfl, ?_, ?_, by decide, by decide⟩
  · intro ec h0 h2
    simp [run_terraform_plan, h0, h2]
  · have h : (run_terraform_plan 2 plan_json).status = "changes_required" := rfl
    rw [h]
    decide

/-- C2 witness at concrete exit codes. -/
theorem terraform_exit_code_mapping_witness :
    (run_terraform_plan 1 []).status = "failed" ∧
    (run_terraform_plan 2 []).status = "changes_required" :=
  ⟨(terraform_exit_code_mapping []).2.2.1 1 (by decide) (by decide),
    (terraform_exit_code_mapping []).2.1⟩

/-- C3: for a parsed plan stream with no error-level messages whose
`planned_change` messages all carry action `create`, `update` or
`delete`, the summary counters equal the respective counts, the
resource list preserves emission order, and its length is the sum of
the three counts. -/
theorem terraform_summary_counts (msgs : List TfMsg) (N M K : Nat)
    (h_noerr : ∀ m ∈ msgs, isErrorMsg m = false)
    (h_act : ∀ m ∈ msgs, plannedType m = true →
      m.change_action = some "create" ∨ m.change_action = some "update" ∨
      m.change_action = some "delete")
    (hN : N = (msgs.filter (plannedWithAction "create")).length)
    (hM : M = (msgs.filter (plannedWithAction "update")).length)
    (hK : K = (msgs.filter (plannedWithAction "delete")).length) :
    (generate_plan_summary msgs).add = N ∧
    (generate_plan_summary msgs).change = M ∧
    (generate_plan_summary msgs).destroy = K ∧
    (generate_plan_summary msgs).resources = (msgs.filter plannedType).map mkResource ∧
    (generate_plan_summary msgs).resources.length = N + M + K := by
  have hres : (generate_plan_summary msgs).resources = (msgs.filter plannedType).map mkResource := by
    rw [generate_plan_summary, foldl_summary_resources, filter_isPlannedMsg_of_noerr msgs h_noerr]
    simp [empty_summary]
  refine ⟨?_, ?_, ?_, hres, ?_⟩
  · rw [generate_plan_summary, foldl_summary_add, filter_isActionMsg_of_noerr _ msgs h_noerr]
    simp [empty_summary, hN]
  · rw [generate_plan_summary, foldl_summary_change, filter_isActionMsg_of_noerr _ msgs h_noerr]
    simp [empty_summary, hM]
  · rw [generate_plan_summary, foldl_summary_destroy, filter_isActionMsg_of_noerr _ msgs h_noerr]
    simp [empty_summary, hK]
  · rw [hres, List.length_map, planned_filter_partition msgs h_act, hN, hM, hK]

/-- C3 witness: one create, one update, one delete message. -/
theorem terraform_summary_counts_witness :
    (generate_plan_summary [sampleCreateMsg, sampleUpdateMsg, sampleDeleteMsg]).add = 1 ∧
    (generate_plan_summary [sampleCreateMsg, sampleUpdateMsg, sampleDeleteMsg]).destroy = 1 ∧
    (generate_plan_summary [sampleCreateMsg, sampleUpdateMsg, sampleDeleteMsg]).resources.length = 1 + 1 + 1 := by
  have h := terraform_summary_counts [sampleCreateMsg, sampleUpdateMsg, sampleDeleteMsg] 1 1 1
    (by decide) (by decide) (by decide) (by decide) (by decide)
  exact ⟨h.1, h.2.2.1, h.2.2.2.2⟩

theorem lintStep_error_count (s : LintInfo) (raw : String) :
    (lintStep s raw).error_count = s.error_count + (if countsAsError raw then 1 else 0) := by
  simp only [lintStep, countsAsError]
  by_cases h1 : strContains (strTrim raw) "[WARNING]" <;>
    by_cases h2 : strContains (strTrim raw) "[INFO]" <;>
      by_cases h3 : strContains (strTrim raw) "[ERROR]" <;>
        simp [h1, h2, h3]

theorem foldl_lint_error_count (lines : List String) :
    ∀ s : LintInfo,
      (List.foldl lintStep s lines).error_count =
        s.error_count + (lines.filter countsAsError).length := by
  induction lines with
  | nil => intro s; simp
  | cons l rest ih =>
    intro s
    rw [List.foldl_cons, ih, lintStep_error_count, List.filter_cons]
    by_cases h : countsAsError l
    · simp [h]; omega
    · simp [h]

/-- C4 (corrected): `_run_helm_lint` sets `passed` from the exit code
alone — `passed` is true iff the `helm lint` process exited with 0;
`[ERROR]` lines in stdout do not influence it, they are only tallied
into `error_count` (one per stripped line whose first matching marker
is `[ERROR]`). -/
theorem helm_lint_passed_amended (returncode : Int) (stdout stderr : String) :
    ((run_helm_lint returncode stdout stderr).passed = true ↔ returncode = 0) ∧
    (run_helm_lint returncode stdout stderr).error_count =
      ((splitLines stdout).filter countsAsError).length := by
  constructor
  · simp [run_helm_lint]
  · show (parse_lint_output stdout).error_count = _
    rw [parse_lint_output, foldl_lint_error_count]
    simp

/-- C4 witness: a clean lint run with exit code 0 passes. -/
theorem helm_lint_passed_amended_witness :
    (run_helm_lint 0 "1 chart(s) linted, 0 chart(s) failed" "").passed = true :=
  (helm_lint_passed_amended 0 "1 chart(s) linted, 0 chart(s) failed" "").1.mpr rfl

/-- C4 counterexample: exit code 0 with an `[ERROR]` line in stdout
still yields `passed = true`, so `passed` is not
`exit code 0 ∧ no [ERROR] line`. -/
theorem helm_lint_passed_counterexample :
    (run_helm_lint 0 "[ERROR] templates/: parse error" "").passed = true ∧
    hasErrorLine "[ERROR] templates/: parse error" = true := by decide

theorem flushBuf_eq {α : Type} (load : String → Option α) (keep : α → Bool)
    (buf : List String) (acc : List α) :
    flushBuf load keep buf acc = acc ++ (bufDoc load keep buf).toList := by
  cases h : bufDoc load keep buf <;> simp [flushBuf, h]

theorem scan_body {α : Type} (load : String → Option α) (keep : α → Bool) (b : List String) :
    ∀ (rest buf : List String) (acc : List α), (∀ l ∈ b, sepLine l = false) →
      scanLines load keep (b ++ rest) buf true acc =
        scanLines load keep rest (buf ++ b.filter bodyKept) true acc := by
  induction b with
  | nil => intro rest buf acc _; simp
  | cons l b ih =>
    intro rest buf acc h
    have hl : sepLine l = false := h l (List.mem_cons_self _ _)
    have hb : ∀ x ∈ b, sepLine x = false := fun x hx => h x (List.mem_cons_of_mem _ hx)
    by_cases hk : bodyKept l
    · rw [List.cons_append]
      show scanLines load keep (l :: (b ++ rest)) buf true acc = _
      simp only [scanLines, hl, hk, Bool.true_and, Bool.false_eq_true, if_false, if_true]
      rw [ih rest (buf ++ [l]) acc hb, List.filter_cons_of_pos hk]
      simp
    · rw [List.cons_append]
      show scanLines load keep (l :: (b ++ rest)) buf true acc = _
      simp only [scanLines, hl, hk, Bool.true_and, Bool.false_eq_true, if_false]
      rw [ih rest buf acc hb, List.filter_cons_of_neg (by simpa using hk)]

theorem scan_blocks {α : Type} (load : String → Option α) (keep : α → Bool)
    (blocks : List (List String)) :
    ∀ (buf : List String) (acc : List α) (inM : Bool),
      (∀ b ∈ blocks, ∀ l ∈ b, sepLine l = false) →
      scanLines load keep (blocksToLines blocks) buf inM acc =
        flushBuf load keep buf acc ++ blocks.filterMap (blockDoc load keep) := by
  induction blocks with
  | nil =>
    intro buf acc inM _
    simp [blocksToLines, scanLines]
  | cons b bs ih =>
    intro buf acc inM h
    have hB : ∀ l ∈ b, sepLine l = false := h b (List.mem_cons_self _ _)
    have hbs : ∀ x ∈ bs, ∀ l ∈ x, sepLine l = false :=
      fun x hx => h x (List.mem_cons_of_mem _ hx)
    have hsep : sepLine "---" = true := by decide
    show scanLines load keep ("---" :: (b ++ blocksToLines bs)) buf inM acc = _
    simp only [scanLines, hsep, if_true]
    rw [scan_body load keep b (blocksToLines bs) [] (flushBuf load keep buf acc) hB,
      List.nil_append, ih (b.filter bodyKept) (flushBuf load keep buf acc) true hbs,
      flushBuf_eq load keep (b.filter bodyKept)]
    have hcons : blockDoc load keep b = bufDoc load keep (b.filter bodyKept) := rfl
    cases hdoc : bufDoc load keep (b.filter bodyKept) <;>
      simp [List.filterMap_cons, hcons, hdoc]

theorem filterMap_length_all_isSome {α β : Type} (f : α → Option β) (l : List α)
    (h : ∀ x ∈ l, (f x).isSome = true) : (l.filterMap f).length = l.length := by
  induction l with
  | nil => simp
  | cons a l ih =>
    have ha := h a (List.mem_cons_self _ _)
    cases hfa : f a with
    | none => rw [hfa] at ha; simp at ha
    | some b =>
      rw [List.filterMap_cons, hfa, List.length_cons,
        ih (fun x hx => h x (List.mem_cons_of_mem _ hx))]
      simp

/-- C5 (corrected): when every document block of the rendered output is
introduced by its own `---` line, `_extract_manifests` returns exactly
the documents whose buffered text loads to a value passing the kind
guard, in order; if all D blocks load and pass the guard the result has
length D.  (Content before the first `---` line is never buffered: the
`in_manifest` flag starts false.) -/
theorem helm_extract_amended {α : Type} (load : String → Option α) (keep : α → Bool)
    (blocks : List (List String)) (output : String)
    (hs : splitLines output = blocksToLines blocks)
    (hb : ∀ b ∈ blocks, ∀ l ∈ b, sepLine l = false) :
    extract_manifests load keep output = blocks.filterMap (blockDoc load keep) ∧
    ((∀ b ∈ blocks, (blockDoc load keep b).isSome = true) →
      (extract_manifests load keep output).length = blocks.length) := by
  have hmain : extract_manifests load keep output = blocks.filterMap (blockDoc load keep) := by
    rw [extract_manifests, hs, scan_blocks load keep blocks [] [] false hb]
    simp [flushBuf, bufDoc]
  exact ⟨hmain, fun hall => by
    rw [hmain, filterMap_length_all_isSome (blockDoc load keep) blocks hall]⟩

/-- C5 witness: helm-style output with two kinded documents, each
introduced by `---`, extracts exactly two manifests. -/
theorem helm_extract_amended_witness :
    extract_manifests (fun s => some s) (fun _ => true)
        "---\nkind: Deployment\n---\nkind: Service" =
      ["kind: Deployment", "kind: Service"] ∧
    (extract_manifests (fun s => some s) (fun _ => true)
        "---\nkind: Deployment\n---\nkind: Service").length = 2 := by
  have h := helm_extract_amended (fun s => some s) (fun _ => true)
    [["kind: Deployment"], ["kind: Service"]]
    "---\nkind: Deployment\n---\nkind: Service" (by decide) (by decide)
  constructor
  · rw [h.1]; decide
  · have := h.2 (by decide)
    simpa using this

/-- C5 counterexample: two well-formed documents separated by one `---`
line (separator reading) yield one manifest, not two — the document
before the first `---` is dropped. -/
theorem helm_extract_counterexample :
    extract_manifests (fun s => some s) (fun _ => true)
        "kind: Deployment\n---\nkind: Service" = ["kind: Service"] ∧
    (extract_manifests (fun s => some s) (fun _ => true)
        "kind: Deployment\n---\nkind: Service").length ≠ 2 := by decide

/-- C6: `validate_repo` passes everything when the allow list is empty,
raises (`Except.error`) when the allow list is non-empty and no entry
is a substring of the target URL, and passes when some entry is a
substring of the target URL. -/
theorem access_guard_spec (allowed : List String) (repo_url : String) :
    (validate_repo [] repo_url = Except.ok true) ∧
    (allowed ≠ [] → (∀ a ∈ allowed, strContains repo_url a = false) →
      validate_repo allowed repo_url =
        Except.error ("Repository not allow-listed: " ++ repo_url)) ∧
    ((∃ a ∈ allowed, strContains repo_url a = true) →
      validate_repo allowed repo_url = Except.ok true) := by
  refine ⟨by simp [validate_repo], ?_, ?_⟩
  · intro hne hnone
    have hempty : allowed.isEmpty = false := by
      cases allowed with
      | nil => exact absurd rfl hne
      | cons a l => rfl
    have hany : allowed.any (fun a => strContains repo_url a) = false := by
      simp only [List.any_eq_false]
      intro a ha
      simp [hnone a ha]
    simp [validate_repo, hempty, hany]
  · rintro ⟨a, ha, hc⟩
    have hempty : allowed.isEmpty = false := by
      cases allowed with
      | nil => exact absurd ha (List.not_mem_nil a)
      | cons x l => rfl
    have hany : allowed.any (fun a => strContains repo_url a) = true :=
      List.any_eq_true.mpr ⟨a, ha, hc⟩
    simp [validate_repo, hempty, hany]

/-- C6 witness: the examples of the spec — a non-matching URL against a
one-entry allow list is rejected, a matching URL passes, and the empty
allow list passes anything. -/
theorem access_guard_spec_witness :
    validate_repo ["github.com/acme/"] "https://github.com/evil/repo" =
      Except.error ("Repository not allow-listed: " ++ "https://github.com/evil/repo") ∧
    validate_repo ["github.com/acme/"] "https://github.com/acme/repo" = Except.ok true ∧
    validate_repo [] "https://anything.example/x" = Except.ok true :=
  ⟨(access_guard_spec ["github.com/acme/"] "https://github.com/evil/repo").2.1
      (by decide) (by decide),
    (access_guard_spec ["github.com/acme/"] "https://github.com/acme/repo").2.2
      ⟨"github.com/acme/", by decide, by decide⟩,
    (access_guard_spec [] "https://anything.example/x").1⟩

/-- C7 (corrected): a direct platform-server publish with an audit
logger appends exactly one `pr_creation` entry on success and none on
failure; a publish routed through the orchestrator appends exactly one
entry on every call, but it is always the `pr_creation_failed` entry
and the call always raises — the un-awaited async `execute_action`
makes the success path (and any second append) unreachable. -/
theorem publish_audit_appends_amended (repo_url : String) (api : Except String String)
    (trail : List OpEntry) :
    (mcp_create_pr "mcp_github" true api trail).2.length =
      trail.length + (match api with | Except.ok _ => 1 | Except.error _ => 0) ∧
    (mcp_create_pr "mcp_gitlab" true api trail).2.length =
      trail.length + (match api with | Except.ok _ => 1 | Except.error _ => 0) ∧
    (orch_create_pr repo_url trail).2 = trail ++ [prFailureEntry] ∧
    (∃ e, (orch_create_pr repo_url trail).1 = Except.error e) := by
  refine ⟨by cases api <;> simp [mcp_create_pr],
    by cases api <;> simp [mcp_create_pr], ?_⟩
  by_cases hg : strContains repo_url "github.com"
  · exact ⟨by simp [orch_create_pr, hg, create_github_pr_call],
      ⟨"AttributeError: coroutine object has no attribute get",
        by simp [orch_create_pr, hg, create_github_pr_call]⟩⟩
  · by_cases hl : strContains repo_url "gitlab.com"
    · exact ⟨by simp [orch_create_pr, hg, hl, create_gitlab_mr_call],
        ⟨"AttributeError: coroutine object has no attribute get",
          by simp [orch_create_pr, hg, hl, create_gitlab_mr_call]⟩⟩
    · exact ⟨by simp [orch_create_pr, hg, hl],
        ⟨"Unsupported repository platform: " ++ repo_url,
          by simp [orch_create_pr, hg, hl]⟩⟩

/-- C7 witness: a successful direct server publish appends one entry;
an orchestrated publish over a github.com URL appends exactly the one
failure entry. -/
theorem publish_audit_appends_amended_witness :
    (mcp_create_pr "mcp_github" true
        (Except.ok "https://github.com/acme/app/pull/1") []).2.length = 1 ∧
    (orch_create_pr "https://github.com/acme/app" []).2 = [prFailureEntry] :=
  ⟨by simpa using (publish_audit_appends_amended "https://github.com/acme/app"
      (Except.ok "https://github.com/acme/app/pull/1") []).1,
    by simpa using (publish_audit_appends_amended "https://github.com/acme/app"
      (Except.ok "https://github.com/acme/app/pull/1") []).2.2.1⟩

/-- C7 counterexample: a failed direct platform-server publish appends
no audit entry at all — the "exactly one append per call, whether it
succeeds or fails" claim is false. -/
theorem publish_audit_appends_counterexample :
    (mcp_create_pr "mcp_github" true (Except.error "GithubException: 404") []).2.length = 0 ∧
    (0 : Nat) ≠ 1 := by decide

/-- C8 (code bug): after two appends with increasing timestamps, a
query with no filters and `limit = 2` (which satisfies `limit ≥ N`)
returns the two entries oldest first, unsorted, because the early
return `len(entries) >= limit` fires before the newest-first sort;
querying with `limit = 3` shows the intended newest-first order the
sort produces when the early return does not fire. -/
theorem audit_query_limit_eval :
    get_audit_trail none none none none none 2
        [log_action (log_action [] auditE1) auditE2] = [auditE1, auditE2] ∧
    get_audit_trail none none none none none 3
        [log_action (log_action [] auditE1) auditE2] = [auditE2, auditE1] ∧
    auditE1 ≠ auditE2 ∧
    [auditE1, auditE2] ≠ [auditE2, auditE1] := by decide

/-- C9 (corrected): for two non-empty source lists the content hash
handed to `track_usage` is `md5(original content)` in both cases and
hence identical; re-binding changes only the citation footer. -/
theorem citation_hash_amended (md5hex : String → String) (content : String)
    (A B : List KBSource) (hA : A ≠ []) (hB : B ≠ []) :
    (generate_citations md5hex content A).2.map TrackRecord.content_hash =
      some (md5hex content) ∧
    (generate_citations md5hex content A).2.map TrackRecord.content_hash =
      (generate_citations md5hex content B).2.map TrackRecord.content_hash := by
  have hAe : A.isEmpty = false := by
    cases A with
    | nil => exact absurd rfl hA
    | cons a l => rfl
  have hBe : B.isEmpty = false := by
    cases B with
    | nil => exact absurd rfl hB
    | cons b l => rfl
  constructor
  · simp [generate_citations, hAe, track_usage]
  · simp [generate_citations, hAe, hBe, track_usage]

/-- C9 witness: two different non-empty source lists give the same
content hash. -/
theorem citation_hash_amended_witness :
    (generate_citations (fun s => s ++ "#md5") "resource blob"
        [⟨"kb://doc1", some "Doc 1"⟩]).2.map TrackRecord.content_hash =
      (generate_citations (fun s => s ++ "#md5") "resource blob"
        [⟨"kb://doc2", none⟩, ⟨"kb://doc3", some "Doc 3"⟩]).2.map TrackRecord.content_hash :=
  (citation_hash_amended (fun s => s ++ "#md5") "resource blob"
    [⟨"kb://doc1", some "Doc 1"⟩] [⟨"kb://doc2", none⟩, ⟨"kb://doc3", some "Doc 3"⟩]
    (by decide) (by decide)).2

/-- C9 counterexample: binding with the empty source list computes no
content hash at all (the early return fires), so the hashes of an
empty and a non-empty binding differ — the claim fails for arbitrary
source-list pairs. -/
theorem citation_hash_counterexample :
    (generate_citations (fun s => s) "content" []).2.map TrackRecord.content_hash = none ∧
    (generate_citations (fun s => s) "content"
        [⟨"kb://doc1", some "Doc 1"⟩]).2.map TrackRecord.content_hash = some "content" ∧
    (none : Option String) ≠ some "content" := by decide

/-- C10: binding citations with an empty source list returns the
content unchanged, with no citation section, no content hash and no
usage record. -/
theorem citation_empty_sources_identity (md5hex : String → String) (content : String) :
    generate_citations md5hex content [] = (content, none) := rfl
